import Mathlib

/-!
Verification development for the AURA Music playback core:
the reactive store (store.js) and the audio engine (player.js).

The JavaScript source is shallowly embedded:
* JS numbers are rationals (`ℚ`); a non-finite media duration is `Option.none`.
* The reducer's reference-equality no-op protocol (`return state` versus a
  freshly spread object) is embedded as `Option State`: `Option.none` means
  the reducer returned the same reference, `Option.some s` a fresh object.
* `Math.random()` draws inside the Fisher–Yates shuffle are supplied by an
  explicit stream `rand : Nat → Nat`; the draw for loop counter `i` is
  `rand i % (i + 1)`, matching `Math.floor(Math.random() * (i + 1))`.
* Engine methods are pure functions on a `World` (store state plus the two
  audio-element handles) that also return the ordered list of observable
  events (store dispatches, element operations, crossfade phases).
-/

namespace AuraMusic

/-- Track value (store.js / player.js): only the fields the embedded code
reads are represented (`id` drives all identity checks). -/
structure Track where
  id : String
  name : String
  artist_name : String
  image : String
  audio : String
deriving DecidableEq, Repr

/-- PLAYER_STATE enum from constants.js (values are opaque tags). -/
inductive PlayerState
  | idle
  | loading
  | playing
  | paused
  | buffering
  | ended
  | error
deriving DecidableEq, Repr

/-- REPEAT_MODE enum from constants.js. -/
inductive RepeatMode
  | none
  | all
  | one
deriving DecidableEq, Repr

/-- The store actions dispatched by the playback core (ACTION constants).
Actions of the UI/library slices that no claim touches are summarised by
`unknown`, which the reducer treats as its default case. -/
inductive Action
  | setCurrentTrack (t : Track)
  | setPlayerState (p : PlayerState)
  | setProgress (q : ℚ)
  | setDuration (q : ℚ)
  | setVolume (q : ℚ)
  | setQueue (queue : List Track) (index : ℤ)
  | setQueueIndex (i : ℤ)
  | setRepeatMode (m : RepeatMode)
  | toggleShuffle
  | setCrossfading (b : Bool)
  | setError (msg : String)
  | unknown
deriving DecidableEq, Repr

/-- The player-relevant slice of the store's AppState (store.js
`createInitialState`), with exactly the fields the embedded reducer cases
read or write. -/
structure State where
  currentTrack : Option Track
  playerState : PlayerState
  progress : ℚ
  duration : ℚ
  volume : ℚ
  queue : List Track
  queueIndex : ℤ
  repeatMode : RepeatMode
  shuffle : Bool
  shuffledQueue : List Track
  isCrossfading : Bool
  error : Option String
  isLoading : Bool
  isSearching : Bool
  recentTracks : List Track
deriving DecidableEq, Repr

/-- One swap step of the Fisher–Yates loop:
`[arr[i], arr[j]] = [arr[j], arr[i]]` (identity when an index is out of
range, which the shuffle loop never produces). -/
def listSwap (l : List α) (i j : Nat) : List α :=
  match l[i]?, l[j]? with
  | some a, some b => (l.set i b).set j a
  | _, _ => l

/-- The Fisher–Yates loop of `shuffleArray` (store.js): the counter runs
`i = len-1, …, 1`, swapping position `i` with `j = rand i % (i+1)`. -/
def fyLoop (rand : Nat → Nat) : Nat → List α → List α
  | 0, l => l
  | i + 1, l => fyLoop rand i (listSwap l (i + 1) (rand (i + 1) % (i + 2)))

/-- shuffleArray (store.js): copy, then Fisher–Yates from the top index
down. The JS copy (`[...array]`) never mutates its argument; purity of the
embedding reflects that. -/
def shuffleArray (rand : Nat → Nat) (l : List α) : List α :=
  fyLoop rand (l.length - 1) l

/-- JS `array[i]` read for a possibly negative index (undefined when out of
range). -/
def jsIndex (l : List α) (i : ℤ) : Option α :=
  if i < 0 then Option.none else l[i.toNat]?

/-- JS `array.slice(0, e)` for an integer end bound (a negative bound counts
from the end, clamped at 0). -/
def jsSliceTake (l : List α) (e : ℤ) : List α :=
  if e < 0 then l.take (l.length - (-e).toNat) else l.take e.toNat

/-- JS `array.slice(b)` for an integer begin bound (a negative bound counts
from the end, clamped at 0). -/
def jsSliceFrom (l : List α) (b : ℤ) : List α :=
  if b < 0 then l.drop (l.length - (-b).toNat) else l.drop b.toNat

/-- Modelled from the spec: constants.js is not among the provided sources;
ERROR_MSG.PLAYBACK is the user-visible playback error message it defines.
Its exact text is irrelevant to every claim. -/
def ERROR_MSG_PLAYBACK : String := "Playback error"

/-- JS `Math.abs` on the rational embedding of JS numbers. -/
def jsAbs (q : ℚ) : ℚ := if q < 0 then -q else q

/-- Store.#reduce (store.js), restricted to the player slice. `Option.none`
embeds `return state` (same reference, a declined/no-op action);
`Option.some` embeds returning a freshly spread object. Persistence-adapter
writes (`storageSet`) are external side effects with no bearing on the
returned state and are not represented. -/
def reduce (rand : Nat → Nat) (s : State) (a : Action) : Option State :=
  match a with
  | .setCurrentTrack t =>
    if s.currentTrack.map Track.id = Option.some t.id then Option.none
    else
      let recent := (t :: s.recentTracks.filter (fun u => u.id ≠ t.id)).take 50
      Option.some { s with currentTrack := Option.some t, recentTracks := recent }
  | .setPlayerState p =>
    if s.playerState = p then Option.none else Option.some { s with playerState := p }
  | .setProgress q =>
    if jsAbs (s.progress - q) < 1 / 10 then Option.none
    else Option.some { s with progress := q }
  | .setDuration q =>
    if s.duration = q then Option.none else Option.some { s with duration := q }
  | .setVolume q =>
    Option.some { s with volume := min 1 (max 0 q) }
  | .setQueue queue index =>
    Option.some { s with queue := queue, queueIndex := index,
                         shuffledQueue := if s.shuffle then shuffleArray rand queue else [] }
  | .setQueueIndex i => Option.some { s with queueIndex := i }
  | .setRepeatMode m => Option.some { s with repeatMode := m }
  | .toggleShuffle =>
    let sh := !s.shuffle
    Option.some { s with shuffle := sh,
                         shuffledQueue := if sh then shuffleArray rand s.queue else [] }
  | .setCrossfading b => Option.some { s with isCrossfading := b }
  | .setError m =>
    Option.some { s with error := Option.some m, isLoading := false, isSearching := false }
  | .unknown => Option.none

/-- selectors.activeQueue (store.js):
`s.shuffle && s.shuffledQueue.length ? s.shuffledQueue : s.queue`. -/
def activeQueue (s : State) : List Track :=
  if s.shuffle = true ∧ s.shuffledQueue ≠ [] then s.shuffledQueue else s.queue

/-- A JS primitive value as compared by `===` inside shallowEqual's
object branch: scalars compare by value, object-valued fields by reference
identity (`ref` carries the identity). -/
inductive Prim
  | num (q : ℚ)
  | str (s : String)
  | boolean (b : Bool)
  | null
  | ref (n : Nat)
deriving DecidableEq, Repr

/-- A selector's output value, covering the shapes shallowEqual (store.js)
distinguishes: scalars, `null`, a `Set` of primitive ids, and a one-level
plain object (association list with unique keys, as JS object literals
have). -/
inductive SVal
  | num (q : ℚ)
  | str (s : String)
  | boolean (b : Bool)
  | null
  | strSet (xs : List String)
  | obj (fields : List (String × Prim))
deriving DecidableEq, Repr

/-- The Set branch of shallowEqual: same size and same membership. -/
def setExtEq (xs ys : List String) : Bool :=
  xs.length == ys.length && xs.all (fun x => ys.contains x)

/-- The plain-object branch of shallowEqual: same number of keys and
key-wise `===` on the values. -/
def objKeywiseEq (xs ys : List (String × Prim)) : Bool :=
  xs.length == ys.length && xs.all (fun kv => ys.lookup kv.1 == Option.some kv.2)

/-- shallowEqual (store.js). Scalars of different `typeof` are unequal;
`null` has `typeof` object but is rejected by the explicit null guard; two
Sets compare by size and membership; two objects compare key-wise. A Set
against an object falls through to the `Object.keys` comparison, where a
Set contributes no enumerable keys — so it equals exactly the empty
object, reproducing the source's behaviour on that corner. -/
def shallowEqual : SVal → SVal → Bool
  | .num a, .num b => a == b
  | .str a, .str b => a == b
  | .boolean a, .boolean b => a == b
  | .null, .null => true
  | .strSet a, .strSet b => setExtEq a b
  | .obj a, .obj b => objKeywiseEq a b
  | .strSet _, .obj f => f.isEmpty
  | .obj f, .strSet _ => f.isEmpty
  | _, _ => false

/-- A general subscriber registered with `subscribe` (store.js). `gid`
identifies the handler; `throws` is the behaviour of its invocation (it
either returns or throws). -/
structure GenListener where
  gid : Nat
  throws : Bool
deriving DecidableEq, Repr

/-- One selector-subscription entry (store.js `select`): the projection,
the last value it observed, a handler identity and the handler's
behaviour. -/
structure SelEntry where
  hid : Nat
  selector : State → SVal
  lastValue : SVal
  throws : Bool

/-- The Store with its subscriber bookkeeping: the current state, the
general listeners in registration order, and the selector entries in
iteration order (the Map of Sets flattened). -/
structure StoreSt where
  state : State
  listeners : List GenListener
  selEntries : List SelEntry

/-- A handler invocation performed during a dispatch. -/
inductive Inv
  | gen (gid : Nat)
  | sel (hid : Nat) (newV prevV : SVal)
deriving DecidableEq, Repr

/-- An exception surfaced to the diagnostic channel (console.error) during
a dispatch. -/
inductive ErrLog
  | subscriber (gid : Nat)
  | selectorSub (hid : Nat)
deriving DecidableEq, Repr

/-- The general-listener sweep of Store.dispatch: every listener is
invoked inside its own try/catch; a throwing listener is logged and the
sweep continues. -/
def notifyGen : List GenListener → List Inv × List ErrLog
  | [] => ([], [])
  | l :: rest =>
    let out := notifyGen rest
    (Inv.gen l.gid :: out.1,
     if l.throws then ErrLog.subscriber l.gid :: out.2 else out.2)

/-- The selector sweep of Store.dispatch: for each entry the new value is
computed; when it is not shallow-equal to the last observed value the
entry's `lastValue` is updated and the handler fires once inside its own
try/catch (the update happens before the handler runs, as in the
source). -/
def notifySel (s' : State) : List SelEntry → List SelEntry × List Inv × List ErrLog
  | [] => ([], [], [])
  | e :: rest =>
    let newV := e.selector s'
    let out := notifySel s' rest
    if shallowEqual newV e.lastValue then
      (e :: out.1, out.2.1, out.2.2)
    else
      ({ e with lastValue := newV } :: out.1,
       Inv.sel e.hid newV e.lastValue :: out.2.1,
       if e.throws then ErrLog.selectorSub e.hid :: out.2.2 else out.2.2)

/-- Store.dispatch (store.js): reduce; if the reducer returned the same
reference, stop with no notification at all; otherwise swap the state
reference, sweep the general listeners, then the selector entries. The
returned triple is the new store, the handler invocations in order, and
the errors surfaced to the diagnostic channel. -/
def Store.dispatch (rand : Nat → Nat) (st : StoreSt) (a : Action) :
    StoreSt × List Inv × List ErrLog :=
  match reduce rand st.state a with
  | Option.none => (st, [], [])
  | Option.some s' =>
    let gOut := notifyGen st.listeners
    let sOut := notifySel s' st.selEntries
    ({ st with state := s', selEntries := sOut.1 },
     gOut.1 ++ sOut.2.1, gOut.2 ++ sOut.2.2)

/-- selectors.volume (store.js), as an `SVal`-valued projection. -/
def volumeSelector (s : State) : SVal := SVal.num s.volume

/-- selectors.progress (store.js), as an `SVal`-valued projection. -/
def progressSelector (s : State) : SVal := SVal.num s.progress

/-- Recogniser for an invocation of the selector handler with identity
`h`. -/
def isSelInvOf (h : Nat) : Inv → Bool
  | Inv.sel h2 _ _ => h2 == h
  | _ => false

/-- Concrete track fixture. -/
def trackA : Track := ⟨"a", "Alpha", "Ann", "imgA", "audA"⟩

/-- Concrete track fixture. -/
def trackB : Track := ⟨"b", "Beta", "Bob", "imgB", "audB"⟩

/-- Concrete track fixture. -/
def trackC : Track := ⟨"c", "Gamma", "Cleo", "imgC", "audC"⟩

/-- Concrete store-state fixture: three-track queue, playing the first. -/
def baseState : State :=
  { currentTrack := Option.some trackA
    playerState := PlayerState.playing
    progress := 0
    duration := 200
    volume := 1 / 2
    queue := [trackA, trackB, trackC]
    queueIndex := 0
    repeatMode := RepeatMode.none
    shuffle := false
    shuffledQueue := []
    isCrossfading := false
    error := Option.none
    isLoading := false
    isSearching := false
    recentTracks := [trackA] }

/-- Degenerate random stream (always draws 0). -/
def rand0 : Nat → Nat := fun _ => 0

/-- Selector entry fixture watching the volume. -/
def entryVol : SelEntry := ⟨0, volumeSelector, SVal.num (1 / 2), false⟩

/-- Selector entry fixture watching the progress; its handler throws. -/
def entryProg : SelEntry := ⟨1, progressSelector, SVal.num 0, true⟩

/-- Store fixture for the no-op dispatch witness. -/
def st0 : StoreSt := ⟨baseState, [⟨0, false⟩], [entryVol]⟩

/-- Store fixture for the selector-notification witness. -/
def st1 : StoreSt := ⟨baseState, [], [entryVol, entryProg]⟩

/-- Store fixture for the handler-isolation witness: the first general
listener and the selector handler both throw. -/
def st2 : StoreSt := ⟨baseState, [⟨0, true⟩, ⟨1, false⟩], [⟨2, volumeSelector, SVal.num (1 / 2), true⟩]⟩

/-- An HTMLAudioElement handle as the engine observes it: source URL (the
empty string is JS falsy `''`), playback position, reported duration
(`Option.none` while non-finite), paused flag and volume. -/
structure AudioEl where
  src : String
  currentTime : ℚ
  duration : Option ℚ
  paused : Bool
  volume : ℚ
deriving DecidableEq, Repr

/-- The AudioPlayer's mutable private fields relevant to the claims: the
two swappable element handles and the retry counter. -/
structure Engine where
  primary : AudioEl
  secondary : AudioEl
  retryCount : Nat
deriving DecidableEq, Repr

/-- The combined system state an engine method acts on: the store's state
and the engine's own fields. -/
structure World where
  store : State
  engine : Engine
deriving DecidableEq, Repr

/-- Observable events of an engine method, in execution order: store
dispatches, element operations, play/crossfade phases and timer
control. -/
inductive Event
  | dispatched (a : Action)
  | elPlayPrimary
  | elPausePrimary
  | elPlaySecondary
  | playCall (t : Track)
  | crossfadeStart (t : Track)
  | rampComplete
  | swapHandles
  | progressTimerStart
  | progressTimerStop
deriving DecidableEq, Repr

/-- Modelled from the spec: api.js (the Resource Resolver) is not among the
provided sources; `resolve(track) → stream_locator` yields a playable
stream locator for the track, here its `audio` locator. No claim depends
on the locator's shape. -/
def getTrackStreamUrl (t : Track) : String := t.audio

/-- A store dispatch as performed from inside an engine method: the state
becomes the reduced state (unchanged when the reducer declined), and the
dispatch is recorded as an event. Subscriber bookkeeping is orthogonal to
the engine claims and lives in `Store.dispatch`. -/
def stDispatch (rand : Nat → Nat) (w : World) (a : Action) : World × List Event :=
  ({ w with store := (reduce rand w.store a).getD w.store }, [Event.dispatched a])

/-- AudioPlayer.seek (player.js): a no-op while the element's duration is
not finite; otherwise clamps the requested time into [0, duration], writes
the element's currentTime and dispatches SET_PROGRESS with the clamped
time. -/
def Player.seek (rand : Nat → Nat) (w : World) (seconds : ℚ) : World × List Event :=
  match w.engine.primary.duration with
  | Option.none => (w, [])
  | Option.some d =>
    let time := min (max seconds 0) d
    let w1 : World :=
      { w with engine := { w.engine with
          primary := { w.engine.primary with currentTime := time } } }
    stDispatch rand w1 (Action.setProgress time)

/-- AudioPlayer.resume (player.js): returns immediately when no source is
loaded; otherwise awaits the element's play(). `playOk` is that promise's
outcome: on success the element runs, PLAYING is dispatched and the
progress timer starts; on rejection the catch only logs and nothing
changes. -/
def Player.resume (rand : Nat → Nat) (playOk : Bool) (w : World) : World × List Event :=
  if w.engine.primary.src = "" then (w, [])
  else if playOk then
    let w1 : World :=
      { w with engine := { w.engine with
          primary := { w.engine.primary with paused := false } } }
    let o1 := stDispatch rand w1 (Action.setPlayerState PlayerState.playing)
    (o1.1, Event.elPlayPrimary :: o1.2 ++ [Event.progressTimerStart])
  else (w, [])

/-- The synchronous prefix of AudioPlayer.play (player.js) for the form
`play(track)` with no queue argument — the only form the engine itself
issues from next/prev and the advance policy: guard on a missing track,
then dispatch SET_CURRENT_TRACK and SET_PLAYER_STATE LOADING and begin the
asynchronous load. The load's outcome-dependent continuation (success,
autoplay block, or failure and retry) is modelled by `playLoadStep`. -/
def Player.playPrefix (rand : Nat → Nat) (w : World) (t? : Option Track) :
    World × List Event :=
  match t? with
  | Option.none => (w, [])
  | Option.some t =>
    let o1 := stDispatch rand w (Action.setCurrentTrack t)
    let o2 := stDispatch rand o1.1 (Action.setPlayerState PlayerState.loading)
    (o2.1, Event.playCall t :: o1.2 ++ o2.2)

/-- AudioPlayer.next (player.js): nothing on an empty active queue; under
REPEAT_MODE.ONE restart-in-place (seek 0, resume); otherwise increment the
index, wrapping to 0 under REPEAT_MODE.ALL at the end and dispatching
ENDED instead when not wrapping; finally dispatch the new index and play
that queue entry immediately (no crossfade on the user-triggered path). -/
def Player.next (rand : Nat → Nat) (playOk : Bool) (w : World) : World × List Event :=
  let s := w.store
  let queue := activeQueue s
  if queue.length = 0 then (w, [])
  else if s.repeatMode = RepeatMode.one then
    let o1 := Player.seek rand w 0
    let o2 := Player.resume rand playOk o1.1
    (o2.1, o1.2 ++ o2.2)
  else
    let index := s.queueIndex + 1
    if (queue.length : ℤ) ≤ index then
      if s.repeatMode = RepeatMode.all then
        let o1 := stDispatch rand w (Action.setQueueIndex 0)
        let o2 := Player.playPrefix rand o1.1 (jsIndex queue 0)
        (o2.1, o1.2 ++ o2.2)
      else
        stDispatch rand w (Action.setPlayerState PlayerState.ended)
    else
      let o1 := stDispatch rand w (Action.setQueueIndex index)
      let o2 := Player.playPrefix rand o1.1 (jsIndex queue index)
      (o2.1, o1.2 ++ o2.2)

/-- AudioPlayer.prev (player.js): past three seconds into the track just
seek back to 0; otherwise step the index back, wrapping to the active
queue's last index under REPEAT_MODE.ALL when it would go below 0 and
clamping to 0 otherwise, dispatch the new index, and play that entry when
it exists. -/
def Player.prev (rand : Nat → Nat) (w : World) : World × List Event :=
  let s := w.store
  let queue := activeQueue s
  if 3 < w.engine.primary.currentTime then
    Player.seek rand w 0
  else
    let index0 := s.queueIndex - 1
    let index := if index0 < 0 then
        (if s.repeatMode = RepeatMode.all then (queue.length : ℤ) - 1 else 0)
      else index0
    let o1 := stDispatch rand w (Action.setQueueIndex index)
    match jsIndex queue index with
    | Option.none => (o1.1, o1.2)
    | Option.some t =>
      let o2 := Player.playPrefix rand o1.1 (Option.some t)
      (o2.1, o1.2 ++ o2.2)

/-- AudioPlayer.addToQueueNext (player.js): splice the track into the base
queue right after the current position and dispatch SET_QUEUE with the
unchanged index. -/
def Player.addToQueueNext (rand : Nat → Nat) (w : World) (t : Track) :
    World × List Event :=
  let q := w.store.queue
  let i := w.store.queueIndex
  let newQueue := jsSliceTake q (i + 1) ++ t :: jsSliceFrom q (i + 1)
  stDispatch rand w (Action.setQueue newQueue i)

/-- The synchronous body of AudioPlayer.crossfadeTo (player.js) up to the
scheduling of the first animation frame: dispatch SET_CROSSFADING true,
aim the secondary element at the next track's stream at volume 0 and start
it. The async function's promise resolves here — its body ends at
requestAnimationFrame — so the awaiter in #onEnded resumes as a microtask
before any animation-frame tick runs. -/
def Player.crossfadeBegin (rand : Nat → Nat) (w : World) (t : Track) :
    World × List Event :=
  let o1 := stDispatch rand w (Action.setCrossfading true)
  let eng : Engine :=
    { w.engine with secondary := { w.engine.secondary with
        src := getTrackStreamUrl t, volume := 0, currentTime := 0, paused := false } }
  ({ o1.1 with engine := eng }, Event.crossfadeStart t :: o1.2 ++ [Event.elPlaySecondary])

/-- The completion frame of AudioPlayer.crossfadeTo (player.js), the tick
with t = 1: the ramp ends with the old primary at gain 0 and the secondary
at the target volume read from the store when the fade began; the primary
is paused and its source cleared; the handle roles swap so the audible
element is now primary and the vacated element's volume is zeroed; only
then do the tick's own SET_CURRENT_TRACK and SET_CROSSFADING false
dispatches run, followed by listener re-attach and the progress-timer
restart. -/
def Player.crossfadeFinish (rand : Nat → Nat) (targetVol : ℚ) (w : World) (t : Track) :
    World × List Event :=
  let oldPrimary : AudioEl := { w.engine.primary with volume := 0, paused := true, src := "" }
  let newPrimary : AudioEl := { w.engine.secondary with volume := targetVol }
  let eng : Engine := { w.engine with
    primary := newPrimary, secondary := { oldPrimary with volume := 0 } }
  let o1 := stDispatch rand { w with engine := eng } (Action.setCurrentTrack t)
  let o2 := stDispatch rand o1.1 (Action.setCrossfading false)
  (o2.1, [Event.rampComplete, Event.elPausePrimary, Event.swapHandles] ++ o1.2 ++ o2.2 ++
    [Event.progressTimerStart])

/-- AudioPlayer.#onEnded (player.js): the track-end advance policy. In the
crossfade branch the engine dispatches the new index, awaits crossfadeTo —
which resumes once the fade is merely scheduled — and then dispatches
SET_CURRENT_TRACK on the next line; that dispatch therefore runs as a
microtask before the first animation frame, in particular before the ramp
completes and the handles swap, and the completion frame's own dispatches
come last. An out-of-range positive index below the length can only be hit
from a negative queueIndex, where the JS would fault inside
getTrackStreamUrl(undefined); that corner is embedded as the dispatch
alone. -/
def Player.onEnded (rand : Nat → Nat) (playOk : Bool) (w : World) : World × List Event :=
  let s := w.store
  let queue := activeQueue s
  if s.repeatMode = RepeatMode.one then
    let o1 := Player.seek rand w 0
    let o2 := Player.resume rand playOk o1.1
    (o2.1, Event.progressTimerStop :: o1.2 ++ o2.2)
  else
    let nextIndex := s.queueIndex + 1
    if nextIndex < (queue.length : ℤ) then
      let o1 := stDispatch rand w (Action.setQueueIndex nextIndex)
      match jsIndex queue nextIndex with
      | Option.none => (o1.1, Event.progressTimerStop :: o1.2)
      | Option.some b =>
        let targetVol := o1.1.store.volume
        let o2 := Player.crossfadeBegin rand o1.1 b
        let o3 := stDispatch rand o2.1 (Action.setCurrentTrack b)
        let o4 := Player.crossfadeFinish rand targetVol o3.1 b
        (o4.1, Event.progressTimerStop :: o1.2 ++ o2.2 ++ o3.2 ++ o4.2)
    else if s.repeatMode = RepeatMode.all then
      let o1 := stDispatch rand w (Action.setQueueIndex 0)
      let o2 := Player.playPrefix rand o1.1 (jsIndex queue 0)
      (o2.1, Event.progressTimerStop :: o1.2 ++ o2.2)
    else
      let o1 := stDispatch rand w (Action.setPlayerState PlayerState.ended)
      let o2 := stDispatch rand o1.1 (Action.setProgress 0)
      (o2.1, Event.progressTimerStop :: o1.2 ++ o2.2)

/-- The outcome of an asynchronous audio load started by play()
(player.js): `started` — canplay fired and the element's play() succeeded;
`blocked` — canplay fired but play() was rejected with NotAllowedError
(autoplay policy); `failed` — the error event fired (or play() rejected
otherwise), so #loadAudio rejected into play()'s catch. -/
inductive LoadOutcome
  | started
  | blocked
  | failed
deriving DecidableEq, Repr

/-- The observable outcome of play()'s load phase: the retry counter
afterwards, the dispatched player state, the dispatched error message, and
whether the engine schedules an automatic next() after the fixed retry
delay. -/
structure PlayLoadResult where
  retryCount : Nat
  playerState : PlayerState
  errorMsg : Option String
  autoNext : Bool
deriving DecidableEq, Repr

/-- The outcome-dependent continuation of AudioPlayer.play's load phase
(player.js lines 83–98 and 348–375): a successful playback start
dispatches PLAYING and resets the retry counter to zero; an autoplay block
dispatches PAUSED and resolves without touching the counter; a load
failure lands in play()'s catch, which dispatches ERROR and
ERROR_MSG.PLAYBACK and, only when the counter is strictly below
AUDIO.MAX_RETRIES, increments it, sleeps AUDIO.RETRY_DELAY_MS and calls
next() (`autoNext`). `maxRetries` abstracts AUDIO.MAX_RETRIES, whose value
lives in the constants module; every claim-relevant property holds for all
its values. -/
def playLoadStep (maxRetries : Nat) (rc : Nat) (o : LoadOutcome) : PlayLoadResult :=
  match o with
  | LoadOutcome.started => ⟨0, PlayerState.playing, Option.none, false⟩
  | LoadOutcome.blocked => ⟨rc, PlayerState.paused, Option.none, false⟩
  | LoadOutcome.failed =>
    if rc < maxRetries then
      ⟨rc + 1, PlayerState.error, Option.some ERROR_MSG_PLAYBACK, true⟩
    else
      ⟨rc, PlayerState.error, Option.some ERROR_MSG_PLAYBACK, false⟩

/-- Concrete primary-element fixture: a loaded, playing source. -/
def primEl : AudioEl := ⟨"audA", 100, Option.some 200, false, 1 / 2⟩

/-- Concrete secondary-element fixture: idle. -/
def secEl : AudioEl := ⟨"", 0, Option.none, true, 0⟩

/-- Concrete engine fixture. -/
def baseEngine : Engine := ⟨primEl, secEl, 0⟩

/-- Concrete world fixture. -/
def baseWorld : World := ⟨baseState, baseEngine⟩

/-- Concrete track fixture used for queue insertion. -/
def trackD : Track := ⟨"d", "Delta", "Dee", "imgD", "audD"⟩

/-- Concrete world fixture: two seconds into the track, at queue index 1. -/
def prevWorld : World :=
  ⟨{ baseState with queueIndex := 1 },
   { baseEngine with primary := { primEl with currentTime := 2 } }⟩

/-- Concrete state fixture with shuffle on. -/
def shuffleState : State :=
  { baseState with shuffle := true, shuffledQueue := [trackA, trackB, trackC] }

/-- The state after one TOGGLE_SHUFFLE dispatch on `shuffleState`. -/
def shuffleState1 : State :=
  (reduce rand0 shuffleState Action.toggleShuffle).getD shuffleState

/-- The state after two TOGGLE_SHUFFLE dispatches on `shuffleState`. -/
def shuffleState2 : State :=
  (reduce rand0 shuffleState1 Action.toggleShuffle).getD shuffleState1

/-- Concrete world fixture at the end of a one-track queue with repeat
None and a stored progress of 1/20 second. -/
def endWorld : World :=
  ⟨{ baseState with queue := [trackA], queueIndex := 0, progress := 1 / 20 }, baseEngine⟩

/-- Pushing a fresh head over a replaced cell permutes back to the original
cons (helper for the Fisher–Yates swap). -/
theorem cons_set_perm {α} (x : α) :
    ∀ (l : List α) (m : Nat) (b : α), l[m]? = Option.some b →
      (b :: l.set m x).Perm (x :: l) := by
  intro l
  induction l with
  | nil => intro m b h; simp at h
  | cons y t ih =>
    intro m b h
    cases m with
    | zero =>
      simp only [List.getElem?_cons_zero, Option.some.injEq] at h
      simp only [List.set_cons_zero]
      rw [h]
      exact List.Perm.swap x b t
    | succ k =>
      simp only [List.getElem?_cons_succ] at h
      have step := ih k b h
      have hrw : (b :: (y :: t).set (k + 1) x) = b :: y :: t.set k x := by simp
      rw [hrw]
      exact (List.Perm.swap y b _).trans ((List.Perm.cons y step).trans (List.Perm.swap x y t))

/-- Writing cell `j` with the old value of cell `i` after writing cell `i`
with the old value of cell `j` permutes the list. -/
theorem set_set_perm {α} :
    ∀ (l : List α) (i j : Nat) (a b : α), l[i]? = Option.some a →
      l[j]? = Option.some b → ((l.set i b).set j a).Perm l := by
  intro l
  induction l with
  | nil => intro i j a b hi _; simp at hi
  | cons y t ih =>
    intro i j a b hi hj
    cases i with
    | zero =>
      simp only [List.getElem?_cons_zero, Option.some.injEq] at hi
      cases j with
      | zero =>
        simp only [List.getElem?_cons_zero, Option.some.injEq] at hj
        simp only [List.set_cons_zero]
        rw [← hi]
      | succ m =>
        simp only [List.getElem?_cons_succ] at hj
        have hrw : ((y :: t).set 0 b).set (m + 1) a = b :: t.set m a := by simp
        rw [hrw, ← hi]
        exact cons_set_perm y t m b hj
    | succ n =>
      simp only [List.getElem?_cons_succ] at hi
      cases j with
      | zero =>
        simp only [List.getElem?_cons_zero, Option.some.injEq] at hj
        have hrw : ((y :: t).set (n + 1) b).set 0 a = a :: t.set n b := by simp
        rw [hrw, ← hj]
        exact cons_set_perm y t n a hi
      | succ m =>
        simp only [List.getElem?_cons_succ] at hj
        have hrw : ((y :: t).set (n + 1) b).set (m + 1) a = y :: (t.set n b).set m a := by
          simp
        rw [hrw]
        exact List.Perm.cons y (ih n m a b hi hj)

/-- A two-point swap of list cells is a permutation. -/
theorem listSwap_perm (l : List α) (i j : Nat) : (listSwap l i j).Perm l := by
  unfold listSwap
  cases hi : l[i]? with
  | none => exact List.Perm.refl l
  | some a =>
    cases hj : l[j]? with
    | none => exact List.Perm.refl l
    | some b => exact set_set_perm l i j a b hi hj

/-- The Fisher–Yates loop permutes its input. -/
theorem fyLoop_perm (rand : Nat → Nat) :
    ∀ (n : Nat) (l : List α), (fyLoop rand n l).Perm l := by
  intro n
  induction n with
  | zero => intro l; exact List.Perm.refl l
  | succ k ih =>
    intro l
    exact (ih _).trans (listSwap_perm l (k + 1) (rand (k + 1) % (k + 2)))

/-- shuffleArray produces a permutation of the base order. -/
theorem shuffleArray_perm (rand : Nat → Nat) (l : List α) :
    (shuffleArray rand l).Perm l :=
  fyLoop_perm rand (l.length - 1) l

/-- The general sweep invokes every listener, in order, with throwing
listeners logged — its output characterised without reference to the
throw flags of other listeners. -/
theorem notifyGen_eq (ls : List GenListener) :
    notifyGen ls = (ls.map (fun l => Inv.gen l.gid),
      (ls.filter GenListener.throws).map (fun l => ErrLog.subscriber l.gid)) := by
  induction ls with
  | nil => rfl
  | cons l rest ih =>
    simp only [notifyGen, ih, List.map_cons, List.filter_cons]
    cases h : l.throws <;> simp [h]

/-- The selector sweep fires exactly the entries whose new value is not
shallow-equal to the last observed one, in order. -/
theorem notifySel_invs (s' : State) (entries : List SelEntry) :
    (notifySel s' entries).2.1 =
      (entries.filter (fun e => !shallowEqual (e.selector s') e.lastValue)).map
        (fun e => Inv.sel e.hid (e.selector s') e.lastValue) := by
  induction entries with
  | nil => rfl
  | cons e rest ih =>
    simp only [notifySel, List.filter_cons]
    cases h : shallowEqual (e.selector s') e.lastValue <;> simp [h, ih]

/-- The selector sweep logs exactly the throwing handlers among those that
fired, in order. -/
theorem notifySel_errs (s' : State) (entries : List SelEntry) :
    (notifySel s' entries).2.2 =
      ((entries.filter (fun e => !shallowEqual (e.selector s') e.lastValue)).filter
        SelEntry.throws).map (fun e => ErrLog.selectorSub e.hid) := by
  induction entries with
  | nil => rfl
  | cons e rest ih =>
    simp only [notifySel, List.filter_cons]
    cases h : shallowEqual (e.selector s') e.lastValue with
    | true => simpa [h] using ih
    | false =>
      cases ht : e.throws <;> simp [h, ht, ih]

/-- SET_QUEUE_INDEX always produces a fresh state with the new index. -/
@[simp] theorem reduce_setQueueIndex_getD (rand : Nat → Nat) (s : State) (i : ℤ) :
    (reduce rand s (Action.setQueueIndex i)).getD s = { s with queueIndex := i } := rfl

/-- SET_CROSSFADING always produces a fresh state with the new flag. -/
@[simp] theorem reduce_setCrossfading_getD (rand : Nat → Nat) (s : State) (b : Bool) :
    (reduce rand s (Action.setCrossfading b)).getD s = { s with isCrossfading := b } := rfl

/-- SET_QUEUE always produces a fresh state with the new queue, index and
regenerated shuffled ordering. -/
@[simp] theorem reduce_setQueue_getD (rand : Nat → Nat) (s : State) (q : List Track) (i : ℤ) :
    (reduce rand s (Action.setQueue q i)).getD s =
      { s with queue := q, queueIndex := i,
               shuffledQueue := if s.shuffle then shuffleArray rand q else [] } := rfl

/-- SET_CURRENT_TRACK never touches the queue index. -/
@[simp] theorem reduce_setCurrentTrack_getD_queueIndex (rand : Nat → Nat) (s : State) (t : Track) :
    ((reduce rand s (Action.setCurrentTrack t)).getD s).queueIndex = s.queueIndex := by
  simp only [reduce]
  split <;> rfl

/-- SET_CURRENT_TRACK never touches the player state. -/
@[simp] theorem reduce_setCurrentTrack_getD_playerState (rand : Nat → Nat) (s : State) (t : Track) :
    ((reduce rand s (Action.setCurrentTrack t)).getD s).playerState = s.playerState := by
  simp only [reduce]
  split <;> rfl

/-- SET_CURRENT_TRACK never touches the progress. -/
@[simp] theorem reduce_setCurrentTrack_getD_progress (rand : Nat → Nat) (s : State) (t : Track) :
    ((reduce rand s (Action.setCurrentTrack t)).getD s).progress = s.progress := by
  simp only [reduce]
  split <;> rfl

/-- SET_CURRENT_TRACK never touches the base queue. -/
@[simp] theorem reduce_setCurrentTrack_getD_queue (rand : Nat → Nat) (s : State) (t : Track) :
    ((reduce rand s (Action.setCurrentTrack t)).getD s).queue = s.queue := by
  simp only [reduce]
  split <;> rfl

/-- SET_PLAYER_STATE leaves the player state equal to the payload. -/
@[simp] theorem reduce_setPlayerState_getD_playerState (rand : Nat → Nat) (s : State)
    (p : PlayerState) :
    ((reduce rand s (Action.setPlayerState p)).getD s).playerState = p := by
  simp only [reduce]
  split
  · simpa using by assumption
  · rfl

/-- SET_PLAYER_STATE never touches the queue index. -/
@[simp] theorem reduce_setPlayerState_getD_queueIndex (rand : Nat → Nat) (s : State)
    (p : PlayerState) :
    ((reduce rand s (Action.setPlayerState p)).getD s).queueIndex = s.queueIndex := by
  simp only [reduce]
  split <;> rfl

/-- SET_PLAYER_STATE never touches the current track. -/
@[simp] theorem reduce_setPlayerState_getD_currentTrack (rand : Nat → Nat) (s : State)
    (p : PlayerState) :
    ((reduce rand s (Action.setPlayerState p)).getD s).currentTrack = s.currentTrack := by
  simp only [reduce]
  split <;> rfl

/-- SET_PLAYER_STATE never touches the progress. -/
@[simp] theorem reduce_setPlayerState_getD_progress (rand : Nat → Nat) (s : State)
    (p : PlayerState) :
    ((reduce rand s (Action.setPlayerState p)).getD s).progress = s.progress := by
  simp only [reduce]
  split <;> rfl

/-- SET_PROGRESS never touches the queue index. -/
@[simp] theorem reduce_setProgress_getD_queueIndex (rand : Nat → Nat) (s : State) (q : ℚ) :
    ((reduce rand s (Action.setProgress q)).getD s).queueIndex = s.queueIndex := by
  simp only [reduce]
  split <;> rfl

/-- SET_PROGRESS never touches the player state. -/
@[simp] theorem reduce_setProgress_getD_playerState (rand : Nat → Nat) (s : State) (q : ℚ) :
    ((reduce rand s (Action.setProgress q)).getD s).playerState = s.playerState := by
  simp only [reduce]
  split <;> rfl

/-- SET_PROGRESS never touches the current track. -/
@[simp] theorem reduce_setProgress_getD_currentTrack (rand : Nat → Nat) (s : State) (q : ℚ) :
    ((reduce rand s (Action.setProgress q)).getD s).currentTrack = s.currentTrack := by
  simp only [reduce]
  split <;> rfl

/-- SET_PROGRESS never touches the repeat mode. -/
@[simp] theorem reduce_setProgress_getD_repeatMode (rand : Nat → Nat) (s : State) (q : ℚ) :
    ((reduce rand s (Action.setProgress q)).getD s).repeatMode = s.repeatMode := by
  simp only [reduce]
  split <;> rfl

/-- The progress after SET_PROGRESS: the payload, unless it was within 0.1
of the stored progress, which the reducer suppresses. -/
@[simp] theorem reduce_setProgress_getD_progress (rand : Nat → Nat) (s : State) (q : ℚ) :
    ((reduce rand s (Action.setProgress q)).getD s).progress =
      (if jsAbs (s.progress - q) < 1 / 10 then s.progress else q) := by
  simp only [reduce]
  split <;> simp_all

/-- A dispatch from inside the engine leaves the engine fields alone. -/
@[simp] theorem stDispatch_engine (rand : Nat → Nat) (w : World) (a : Action) :
    (stDispatch rand w a).1.engine = w.engine := rfl

/-- The events of a single engine-side dispatch. -/
@[simp] theorem stDispatch_events (rand : Nat → Nat) (w : World) (a : Action) :
    (stDispatch rand w a).2 = [Event.dispatched a] := rfl

/-- The store after a single engine-side dispatch. -/
@[simp] theorem stDispatch_store (rand : Nat → Nat) (w : World) (a : Action) :
    (stDispatch rand w a).1.store = (reduce rand w.store a).getD w.store := rfl

/-- Entries whose handler identity does not occur in a list contribute no
matches there. -/
theorem countP_hid_zero_of_not_mem (h : Nat) (p : SelEntry → Bool) :
    ∀ entries : List SelEntry, h ∉ entries.map SelEntry.hid →
      entries.countP (fun e2 => (e2.hid == h) && p e2) = 0 := by
  intro entries
  induction entries with
  | nil => intro _; rfl
  | cons e rest ih =>
    intro hnot
    simp only [List.map_cons, List.mem_cons] at hnot
    push_neg at hnot
    rw [List.countP_cons]
    have hne : (e.hid == h) = false := by
      rw [beq_eq_false_iff_ne]
      exact fun hh => hnot.1 hh.symm
    simp [hne, ih hnot.2]

/-- With pairwise-distinct handler identities, counting matches for one
entry's identity over the whole list isolates that entry. -/
theorem countP_hid_unique (p : SelEntry → Bool) :
    ∀ entries : List SelEntry, (entries.map SelEntry.hid).Nodup →
      ∀ e ∈ entries,
        entries.countP (fun e2 => (e2.hid == e.hid) && p e2) = (if p e then 1 else 0) := by
  intro entries
  induction entries with
  | nil => intro _ e he; simp at he
  | cons hd rest ih =>
    intro hnd e he
    rw [List.map_cons, List.nodup_cons] at hnd
    rw [List.countP_cons]
    rcases List.mem_cons.mp he with rfl | hmem
    · have hz : rest.countP (fun e2 => (e2.hid == e.hid) && p e2) = 0 :=
        countP_hid_zero_of_not_mem e.hid p rest hnd.1
      simp [hz]
    · have hne : (hd.hid == e.hid) = false := by
        rw [beq_eq_false_iff_ne]
        intro hh
        exact hnd.1 (hh ▸ List.mem_map.mpr ⟨e, hmem, rfl⟩)
      simp [hne, ih hnd.2 e hmem]

/-- The invocation list produced by the selector sweep, counted for one
handler identity, equals a direct count over the entries. -/
theorem countP_sel_invs (s' : State) (h : Nat) :
    ∀ entries : List SelEntry,
      ((entries.filter (fun e => !shallowEqual (e.selector s') e.lastValue)).map
        (fun e => Inv.sel e.hid (e.selector s') e.lastValue)).countP (isSelInvOf h) =
      entries.countP (fun e2 => (e2.hid == h) && !shallowEqual (e2.selector s') e2.lastValue) := by
  intro entries
  induction entries with
  | nil => rfl
  | cons e rest ih =>
    rw [List.filter_cons, List.countP_cons]
    cases hsh : shallowEqual (e.selector s') e.lastValue with
    | true => simp [ih]
    | false =>
      simp only [Bool.not_false, if_pos, List.map_cons, List.countP_cons, ih, isSelInvOf]
      simp

/-- C2: for every dispatched action, when the reducer returns the same
state reference (embedded as `reduce … = Option.none`) the dispatch leaves
the store identical and invokes zero handlers, general or selector-based;
otherwise the state afterwards is exactly the reduced next state. The
third conjunct is the cited instance: SET_PROGRESS with a payload within
0.1 seconds of the stored progress is such a no-op reduction. -/
theorem dispatch_noop_and_update (rand : Nat → Nat) (st : StoreSt) (a : Action) :
    (reduce rand st.state a = Option.none →
      Store.dispatch rand st a = (st, [], [])) ∧
    (∀ s', reduce rand st.state a = Option.some s' →
      (Store.dispatch rand st a).1.state = s') ∧
    (∀ p : ℚ, jsAbs (st.state.progress - p) < 1 / 10 →
      reduce rand st.state (Action.setProgress p) = Option.none) := by
  refine ⟨fun h => ?_, fun s' h => ?_, fun p hp => ?_⟩
  · simp [Store.dispatch, h]
  · simp [Store.dispatch, h]
  · simp only [reduce]
    rw [if_pos hp]

/-- Witness for C2 at a concrete input: progress is 0, the payload 1/20 is
within 0.1, so the dispatch returns the identical store and fires no
handler at all. -/
theorem dispatch_noop_and_update_witness :
    Store.dispatch rand0 st0 (Action.setProgress (1 / 20)) = (st0, [], []) :=
  (dispatch_noop_and_update rand0 st0 (Action.setProgress (1 / 20))).1
    (by norm_num [reduce, st0, baseState, jsAbs])

/-- C3: after a state-changing dispatch, each registered selector entry's
handler is invoked exactly once when the selector's value on the new state
is not shallow-equal to its last observed value, and zero times otherwise;
in particular an in-sync volume selector never fires on a SET_PROGRESS
dispatch, which changes only the progress field. -/
theorem selector_fires_iff_changed (rand : Nat → Nat) (st : StoreSt) (a : Action)
    (s' : State) (hred : reduce rand st.state a = Option.some s')
    (hnd : (st.selEntries.map SelEntry.hid).Nodup) :
    (∀ e ∈ st.selEntries,
      (Store.dispatch rand st a).2.1.countP (isSelInvOf e.hid) =
        (if shallowEqual (e.selector s') e.lastValue then 0 else 1)) ∧
    (∀ e ∈ st.selEntries, e.selector = volumeSelector →
      e.lastValue = SVal.num st.state.volume →
      ∀ p : ℚ, a = Action.setProgress p →
        (Store.dispatch rand st a).2.1.countP (isSelInvOf e.hid) = 0) := by
  have main : ∀ e ∈ st.selEntries,
      (Store.dispatch rand st a).2.1.countP (isSelInvOf e.hid) =
        (if shallowEqual (e.selector s') e.lastValue then 0 else 1) := by
    intro e he
    simp only [Store.dispatch, hred]
    rw [List.countP_append, notifyGen_eq]
    have hgen : (st.listeners.map fun l => Inv.gen l.gid).countP (isSelInvOf e.hid) = 0 := by
      rw [List.countP_map]
      simp [Function.comp, isSelInvOf]
    rw [hgen, notifySel_invs, countP_sel_invs, Nat.zero_add,
      countP_hid_unique (fun e2 => !shallowEqual (e2.selector s') e2.lastValue)
        st.selEntries hnd e he]
    cases hsh : shallowEqual (e.selector s') e.lastValue <;> simp [hsh]
  refine ⟨main, fun e he hsel hlast p ha => ?_⟩
  subst ha
  have hs' : s' = { st.state with progress := p } := by
    simp only [reduce] at hred
    split at hred
    · exact Option.noConfusion hred
    · injection hred with hh
      exact hh.symm
  have hvol : s'.volume = st.state.volume := by rw [hs']
  rw [main e he, hsel, hlast]
  simp [volumeSelector, hvol, shallowEqual]

/-- Witness for C3 at a concrete input: dispatching SET_PROGRESS 5 on the
fixture store fires the progress selector exactly once and the in-sync
volume selector not at all. -/
theorem selector_fires_iff_changed_witness :
    (Store.dispatch rand0 st1 (Action.setProgress 5)).2.1.countP (isSelInvOf 0) = 0 ∧
    (Store.dispatch rand0 st1 (Action.setProgress 5)).2.1.countP (isSelInvOf 1) = 1 := by
  have h := selector_fires_iff_changed rand0 st1 (Action.setProgress 5)
    { baseState with progress := 5 }
    (by norm_num [reduce, st1, baseState, jsAbs]) (by decide)
  constructor
  · exact h.2 entryVol (List.mem_cons_self _ _) rfl rfl 5 rfl
  · have h1 := h.1 entryProg (List.mem_cons_of_mem _ (List.mem_cons_self _ _))
    have hsh : shallowEqual (entryProg.selector { baseState with progress := 5 })
        entryProg.lastValue = false := by
      norm_num [entryProg, progressSelector, shallowEqual, beq_eq_false_iff_ne]
    rw [hsh] at h1
    simpa using h1

/-- C9: handler isolation. After a state-changing dispatch, the final
state is exactly the reduced state, the full invocation list (every
general listener, in order, then every selector entry whose value changed)
is characterised without reference to any handler's throwing behaviour —
so a throwing handler never prevents the remaining handlers from running
or perturbs the final state — and the throwing handlers appear exactly in
the diagnostic log, never as an exception out of dispatch (the embedding
of dispatch is a total function whose only error output is that log). -/
theorem handler_isolation (rand : Nat → Nat) (st : StoreSt) (a : Action)
    (s' : State) (hred : reduce rand st.state a = Option.some s') :
    (Store.dispatch rand st a).1.state = s' ∧
    (Store.dispatch rand st a).2.1 =
      st.listeners.map (fun l => Inv.gen l.gid) ++
      (st.selEntries.filter (fun e => !shallowEqual (e.selector s') e.lastValue)).map
        (fun e => Inv.sel e.hid (e.selector s') e.lastValue) ∧
    (Store.dispatch rand st a).2.2 =
      (st.listeners.filter GenListener.throws).map (fun l => ErrLog.subscriber l.gid) ++
      ((st.selEntries.filter (fun e => !shallowEqual (e.selector s') e.lastValue)).filter
        SelEntry.throws).map (fun e => ErrLog.selectorSub e.hid) := by
  refine ⟨?_, ?_, ?_⟩
  · simp [Store.dispatch, hred]
  · simp [Store.dispatch, hred, notifyGen_eq, notifySel_invs]
  · simp [Store.dispatch, hred, notifyGen_eq, notifySel_errs]

/-- Witness for C9 at a concrete input: with a throwing general listener
and a throwing selector handler, every handler still runs (both listeners
and the volume selector fire), the state update goes through, and exactly
the two throwing handlers are logged. -/
theorem handler_isolation_witness :
    (Store.dispatch rand0 st2 (Action.setVolume 1)).1.state =
      { baseState with volume := 1 } ∧
    (Store.dispatch rand0 st2 (Action.setVolume 1)).2.1 =
      [Inv.gen 0, Inv.gen 1, Inv.sel 2 (SVal.num 1) (SVal.num (1 / 2))] ∧
    (Store.dispatch rand0 st2 (Action.setVolume 1)).2.2 =
      [ErrLog.subscriber 0, ErrLog.selectorSub 2] := by
  have h := handler_isolation rand0 st2 (Action.setVolume 1)
    { baseState with volume := 1 } (by norm_num [reduce, st2, baseState])
  refine ⟨h.1, ?_, ?_⟩
  · rw [h.2.1]
    norm_num [st2, volumeSelector, baseState, shallowEqual, beq_eq_false_iff_ne]
  · rw [h.2.2]
    norm_num [st2, volumeSelector, baseState, shallowEqual, beq_eq_false_iff_ne,
      SelEntry.throws, GenListener.throws]

/-- An in-range nonnegative integer index always reads an element. -/
theorem jsIndex_isSome (l : List α) (i : ℤ) (h0 : 0 ≤ i) (hlt : i < (l.length : ℤ)) :
    ∃ x, jsIndex l i = Option.some x := by
  have hnat : i.toNat < l.length := by omega
  refine ⟨l.get ⟨i.toNat, hnat⟩, ?_⟩
  unfold jsIndex
  rw [if_neg (by omega), List.getElem?_eq_getElem hnat, List.get_eq_getElem]

/-- C5: next() semantics, under the documented queue invariant
(`current_index` is a valid index of the active ordering) and an
operational primary element (finite nonnegative duration, loaded source,
accepted play()) where the restart branch touches it. (1) An empty active
queue: next() changes nothing. (2) REPEAT_MODE.ONE: restart in place at
position 0, resumed, queue index unchanged. (3) Last index and
REPEAT_MODE.ALL: wrap to index 0 and play that entry. (4) Last index and
REPEAT_MODE.NONE: dispatch ENDED, index unchanged, nothing plays.
(5) Otherwise: advance to index+1 and play that entry immediately, with no
crossfade. -/
theorem next_semantics (rand : Nat → Nat) (w : World) :
    (activeQueue w.store = [] → Player.next rand true w = (w, [])) ∧
    (activeQueue w.store ≠ [] → w.store.repeatMode = RepeatMode.one →
      ∀ d, w.engine.primary.duration = Option.some d → 0 ≤ d →
        w.engine.primary.src ≠ "" →
        ((Player.next rand true w).1.store.queueIndex = w.store.queueIndex ∧
         (Player.next rand true w).1.engine.primary.currentTime = 0 ∧
         (Player.next rand true w).1.engine.primary.paused = false ∧
         (Player.next rand true w).1.store.playerState = PlayerState.playing)) ∧
    (activeQueue w.store ≠ [] →
      w.store.queueIndex = ((activeQueue w.store).length : ℤ) - 1 →
      w.store.repeatMode = RepeatMode.all →
      ((Player.next rand true w).1.store.queueIndex = 0 ∧
       (∃ t, jsIndex (activeQueue w.store) 0 = Option.some t ∧
         Event.playCall t ∈ (Player.next rand true w).2))) ∧
    (activeQueue w.store ≠ [] →
      w.store.queueIndex = ((activeQueue w.store).length : ℤ) - 1 →
      w.store.repeatMode = RepeatMode.none →
      ((Player.next rand true w).1.store.playerState = PlayerState.ended ∧
       (Player.next rand true w).1.store.queueIndex = w.store.queueIndex ∧
       ∀ t, Event.playCall t ∉ (Player.next rand true w).2)) ∧
    (w.store.repeatMode ≠ RepeatMode.one → 0 ≤ w.store.queueIndex →
      w.store.queueIndex + 1 < ((activeQueue w.store).length : ℤ) →
      ((Player.next rand true w).1.store.queueIndex = w.store.queueIndex + 1 ∧
       (∃ t, jsIndex (activeQueue w.store) (w.store.queueIndex + 1) = Option.some t ∧
         Event.playCall t ∈ (Player.next rand true w).2) ∧
       ∀ t, Event.crossfadeStart t ∉ (Player.next rand true w).2)) := by
  refine ⟨?_, ?_, ?_, ?_, ?_⟩
  · intro h
    simp [Player.next, h]
  · intro hne hone d hdur hd0 hsrc
    have htime : min (max (0 : ℚ) 0) d = 0 := by simp [hd0]
    simp [Player.next, List.length_eq_zero, hne, hone, Player.seek, hdur, htime,
      Player.resume, hsrc, hd0]
  · intro hne hlast hall
    obtain ⟨a, l, hq⟩ := List.exists_cons_of_ne_nil hne
    have hlen : ((activeQueue w.store).length : ℤ) = (l.length : ℤ) + 1 := by
      rw [hq]
      push_cast [List.length_cons]
      ring
    have hcond2 : (l.length : ℤ) ≤ w.store.queueIndex := by omega
    refine ⟨?_, a, ?_, ?_⟩ <;>
      simp [Player.next, hq, hall, hcond2, Player.playPrefix, jsIndex]
  · intro hne hlast hnone
    have hcond : ((activeQueue w.store).length : ℤ) ≤ w.store.queueIndex + 1 := by
      rw [hlast]; omega
    refine ⟨?_, ?_, ?_⟩ <;>
      simp [Player.next, List.length_eq_zero, hne, hnone, hcond]
  · intro hone h0 hlt
    have hne : activeQueue w.store ≠ [] := by
      intro hnil
      rw [hnil] at hlt
      simp at hlt
      omega
    have hcond : ¬ ((activeQueue w.store).length : ℤ) ≤ w.store.queueIndex + 1 :=
      not_le.mpr hlt
    obtain ⟨t, hjs⟩ := jsIndex_isSome (activeQueue w.store) (w.store.queueIndex + 1)
      (by omega) hlt
    refine ⟨?_, ⟨t, hjs, ?_⟩, ?_⟩ <;>
      simp [Player.next, List.length_eq_zero, hne, hone, hcond, Player.playPrefix, hjs]

/-- Witness for C5 at a concrete input: fixture queue [A,B,C] at index 0
with repeat None — next() advances to index 1 and plays B, with no
crossfade event. -/
theorem next_semantics_witness :
    (Player.next rand0 true baseWorld).1.store.queueIndex = 0 + 1 ∧
    (∃ t, jsIndex (activeQueue baseWorld.store) (0 + 1) = Option.some t ∧
      Event.playCall t ∈ (Player.next rand0 true baseWorld).2) ∧
    (∀ t, Event.crossfadeStart t ∉ (Player.next rand0 true baseWorld).2) := by
  have h := (next_semantics rand0 baseWorld).2.2.2.2
    (by decide) (by decide) (by norm_num [activeQueue, baseState, baseWorld])
  simpa [baseWorld, baseState] using h

/-- C6: prev() semantics. Past three seconds of elapsed playback (on an
operational element with a finite nonnegative duration) prev() restarts
the current track at position 0 and leaves the queue index unchanged.
Otherwise, under the documented queue invariant, it moves to the previous
index — wrapping to the active queue's last index when the index is 0 and
repeat is ALL, clamping to 0 when the index is 0 otherwise — and plays the
entry at the resulting index. -/
theorem prev_semantics (rand : Nat → Nat) (w : World) :
    (3 < w.engine.primary.currentTime →
      ∀ d, w.engine.primary.duration = Option.some d → 0 ≤ d →
        ((Player.prev rand w).1.store.queueIndex = w.store.queueIndex ∧
         (Player.prev rand w).1.engine.primary.currentTime = 0)) ∧
    (¬ 3 < w.engine.primary.currentTime → activeQueue w.store ≠ [] →
      w.store.queueIndex = 0 → w.store.repeatMode = RepeatMode.all →
      ((Player.prev rand w).1.store.queueIndex = ((activeQueue w.store).length : ℤ) - 1 ∧
       ∃ t, jsIndex (activeQueue w.store) (((activeQueue w.store).length : ℤ) - 1) =
          Option.some t ∧
         Event.playCall t ∈ (Player.prev rand w).2)) ∧
    (¬ 3 < w.engine.primary.currentTime → activeQueue w.store ≠ [] →
      w.store.queueIndex = 0 → w.store.repeatMode ≠ RepeatMode.all →
      ((Player.prev rand w).1.store.queueIndex = 0 ∧
       ∃ t, jsIndex (activeQueue w.store) 0 = Option.some t ∧
         Event.playCall t ∈ (Player.prev rand w).2)) ∧
    (¬ 3 < w.engine.primary.currentTime → 0 < w.store.queueIndex →
      w.store.queueIndex < ((activeQueue w.store).length : ℤ) →
      ((Player.prev rand w).1.store.queueIndex = w.store.queueIndex - 1 ∧
       ∃ t, jsIndex (activeQueue w.store) (w.store.queueIndex - 1) = Option.some t ∧
         Event.playCall t ∈ (Player.prev rand w).2)) := by
  refine ⟨?_, ?_, ?_, ?_⟩
  · intro hcur d hdur hd0
    have htime : min (max (0 : ℚ) 0) d = 0 := by simp [hd0]
    simp [Player.prev, hcur, Player.seek, hdur, htime, hd0]
  · intro hcur hne h0 hall
    have hlen : (0 : ℤ) < ((activeQueue w.store).length : ℤ) := by
      have := List.length_pos.mpr hne
      omega
    obtain ⟨t, hjs⟩ := jsIndex_isSome (activeQueue w.store)
      (((activeQueue w.store).length : ℤ) - 1) (by omega) (by omega)
    have hneg : w.store.queueIndex - 1 < 0 := by omega
    refine ⟨?_, t, hjs, ?_⟩ <;>
      simp [Player.prev, hcur, hneg, hall, hjs, Player.playPrefix]
  · intro hcur hne h0 hnall
    have hlen : (0 : ℤ) < ((activeQueue w.store).length : ℤ) := by
      have := List.length_pos.mpr hne
      omega
    obtain ⟨t, hjs⟩ := jsIndex_isSome (activeQueue w.store) 0 le_rfl hlen
    have hneg : w.store.queueIndex - 1 < 0 := by omega
    refine ⟨?_, t, hjs, ?_⟩ <;>
      simp [Player.prev, hcur, hneg, hnall, hjs, Player.playPrefix]
  · intro hcur h0 hlt
    obtain ⟨t, hjs⟩ := jsIndex_isSome (activeQueue w.store) (w.store.queueIndex - 1)
      (by omega) (by omega)
    have hneg : ¬ (w.store.queueIndex - 1 < 0) := by omega
    refine ⟨?_, t, hjs, ?_⟩ <;>
      simp [Player.prev, hcur, hneg, hjs, Player.playPrefix]

/-- Witness for C6 at concrete inputs: at 100 seconds into the fixture
track (index 0), prev() restarts at 0 without touching the index; and at
2 seconds with index 1, prev() moves to index 0 and plays A. -/
theorem prev_semantics_witness :
    ((Player.prev rand0 baseWorld).1.store.queueIndex = 0 ∧
     (Player.prev rand0 baseWorld).1.engine.primary.currentTime = 0) ∧
    (∃ t, jsIndex (activeQueue prevWorld.store) (1 - 1) = Option.some t ∧
      Event.playCall t ∈ (Player.prev rand0 prevWorld).2) := by
  constructor
  · have h := (prev_semantics rand0 baseWorld).1 (by norm_num [baseWorld, baseEngine, primEl])
      200 rfl (by norm_num)
    simpa [baseWorld, baseState] using h
  · have h := ((prev_semantics rand0 prevWorld).2.2.2
      (by norm_num [prevWorld, baseEngine, primEl])
      (by decide) (by norm_num [prevWorld, baseState, activeQueue])).2
    simpa [prevWorld, baseState] using h

/-- C10: addToQueueNext(t) splices the track in immediately after the
current position of the base queue — the new base queue is
q[0..i] ++ [t] ++ q[i+1..] — while the queue index and the current track
are unchanged. The hypothesis is the documented invariant that the index
is a valid position or −1. -/
theorem addToQueueNext_inserts_after_current (rand : Nat → Nat) (w : World) (t : Track)
    (h : -1 ≤ w.store.queueIndex) :
    (Player.addToQueueNext rand w t).1.store.queue =
      w.store.queue.take (w.store.queueIndex + 1).toNat ++
        t :: w.store.queue.drop (w.store.queueIndex + 1).toNat ∧
    (Player.addToQueueNext rand w t).1.store.queueIndex = w.store.queueIndex ∧
    (Player.addToQueueNext rand w t).1.store.currentTrack = w.store.currentTrack := by
  have h1 : ¬ (w.store.queueIndex + 1 < 0) := by omega
  refine ⟨?_, ?_, ?_⟩ <;>
    simp [Player.addToQueueNext, jsSliceTake, jsSliceFrom, h1]

/-- Witness for C10 at a concrete input: inserting D into [A,B,C] at
current index 0 yields [A,D,B,C] with the index still 0 and A still
current. -/
theorem addToQueueNext_witness :
    (Player.addToQueueNext rand0 baseWorld trackD).1.store.queue =
      [trackA, trackD, trackB, trackC] ∧
    (Player.addToQueueNext rand0 baseWorld trackD).1.store.queueIndex = 0 ∧
    (Player.addToQueueNext rand0 baseWorld trackD).1.store.currentTrack =
      Option.some trackA := by
  have h := addToQueueNext_inserts_after_current rand0 baseWorld trackD (by decide)
  refine ⟨?_, ?_, ?_⟩
  · rw [h.1]
    rfl
  · rw [h.2.1]
    rfl
  · rw [h.2.2]
    rfl

/-- Counterexample to C7 as stated: on the concrete state with shuffle
already on (base queue [A,B,C]) and the all-zero random stream, two
successive TOGGLE_SHUFFLE dispatches leave the active ordering as the
freshly drawn permutation [B,C,A], not the original base queue — the
claim's round-trip of the active ordering fails whenever shuffle starts
out on. -/
theorem toggle_shuffle_counterexample :
    activeQueue ((reduce rand0 ((reduce rand0 shuffleState Action.toggleShuffle).getD
        shuffleState) Action.toggleShuffle).getD shuffleState) ≠ shuffleState.queue ∧
    ((reduce rand0 ((reduce rand0 shuffleState Action.toggleShuffle).getD
        shuffleState) Action.toggleShuffle).getD shuffleState).shuffle =
      shuffleState.shuffle := by
  constructor
  · intro h
    have : activeQueue ((reduce rand0 ((reduce rand0 shuffleState Action.toggleShuffle).getD
        shuffleState) Action.toggleShuffle).getD shuffleState) = [trackB, trackC, trackA] := rfl
    rw [this] at h
    have : shuffleState.queue = [trackA, trackB, trackC] := rfl
    rw [this] at h
    simp [trackA, trackB] at h
  · rfl

/-- C7 (amended): dispatching TOGGLE_SHUFFLE never rewrites the base queue
(the reducer reuses the same array and the Fisher–Yates shuffle works on a
copy), and two successive toggles restore the shuffle flag; when shuffle
was off, the active ordering afterwards is again the original base queue;
when shuffle was on, the active ordering is a freshly regenerated shuffled
ordering — a permutation of the base queue, not in general the base order
itself. -/
theorem toggle_shuffle_roundtrip (rand1 rand2 : Nat → Nat) (s s1 s2 : State)
    (h1 : reduce rand1 s Action.toggleShuffle = Option.some s1)
    (h2 : reduce rand2 s1 Action.toggleShuffle = Option.some s2) :
    s1.queue = s.queue ∧ s2.queue = s.queue ∧ s2.shuffle = s.shuffle ∧
    (s.shuffle = false → activeQueue s2 = s.queue) ∧
    (s.shuffle = true → (activeQueue s2).Perm s.queue) := by
  simp only [reduce, Option.some.injEq] at h1 h2
  subst h1
  subst h2
  refine ⟨rfl, rfl, by simp, fun hf => ?_, fun ht => ?_⟩
  · simp [activeQueue, hf]
  · simp only [activeQueue, ht]
    by_cases hz : shuffleArray rand2 s.queue = []
    · simp [ht, hz]
    · simp [ht, hz]
      exact shuffleArray_perm rand2 s.queue

/-- Witness for C7 at a concrete input: after two toggles on the
shuffle-on fixture, the base queue and the shuffle flag are restored and
the active ordering is a permutation of the base queue. -/
theorem toggle_shuffle_roundtrip_witness :
    shuffleState2.queue = shuffleState.queue ∧
    shuffleState2.shuffle = shuffleState.shuffle ∧
    (activeQueue shuffleState2).Perm shuffleState.queue := by
  have h := toggle_shuffle_roundtrip rand0 rand0 shuffleState shuffleState1 shuffleState2
    rfl rfl
  exact ⟨h.2.1, h.2.2.1, h.2.2.2.2 rfl⟩

/-- Counterexample to C8 as stated: with the retry ceiling at 3 and the
counter already at 3, a further load failure leaves the counter at 3 — it
is not incremented — and schedules no automatic retry; the claim's
"every load failure increments the retry counter" fails at the ceiling,
where the source checks the ceiling before incrementing. -/
theorem retry_increment_counterexample :
    (playLoadStep 3 3 LoadOutcome.failed).retryCount = 3 ∧
    ¬ (playLoadStep 3 3 LoadOutcome.failed).retryCount = 3 + 1 ∧
    (playLoadStep 3 3 LoadOutcome.failed).autoNext = false ∧
    (playLoadStep 3 3 LoadOutcome.failed).playerState = PlayerState.error := by
  refine ⟨rfl, by decide, rfl, rfl⟩

/-- C8 (amended): the retry policy of play()'s load phase, for every value
of the AUDIO.MAX_RETRIES ceiling. A load failure increments the counter
and schedules the automatic delayed next() exactly when the counter was
still strictly below the ceiling at the time of failure; once the counter
has reached the ceiling a failure leaves it unchanged and the engine stays
in the Error state with no further automatic action; a load that reaches a
successful playback start resets the counter to zero, while an
autoplay-blocked load pauses without touching the counter. -/
theorem retry_policy (maxRetries rc : Nat) :
    (rc < maxRetries →
      playLoadStep maxRetries rc LoadOutcome.failed =
        ⟨rc + 1, PlayerState.error, Option.some ERROR_MSG_PLAYBACK, true⟩) ∧
    (maxRetries ≤ rc →
      playLoadStep maxRetries rc LoadOutcome.failed =
        ⟨rc, PlayerState.error, Option.some ERROR_MSG_PLAYBACK, false⟩) ∧
    playLoadStep maxRetries rc LoadOutcome.started =
      ⟨0, PlayerState.playing, Option.none, false⟩ ∧
    playLoadStep maxRetries rc LoadOutcome.blocked =
      ⟨rc, PlayerState.paused, Option.none, false⟩ := by
  refine ⟨fun h => ?_, fun h => ?_, rfl, rfl⟩
  · simp [playLoadStep, h]
  · simp [playLoadStep, Nat.not_lt.mpr h]

/-- Witness for C8 at concrete inputs: below the ceiling (2 of 3) a
failure increments to 3 and auto-advances; a successful start resets the
counter to 0. -/
theorem retry_policy_witness :
    playLoadStep 3 2 LoadOutcome.failed =
      ⟨3, PlayerState.error, Option.some ERROR_MSG_PLAYBACK, true⟩ ∧
    playLoadStep 3 7 LoadOutcome.started =
      ⟨0, PlayerState.playing, Option.none, false⟩ :=
  ⟨(retry_policy 3 2).1 (by decide), (retry_policy 3 7).2.2.1⟩

/-- Counterexample to C1 as stated: at the natural end of the one-track
fixture queue (repeat None) with a stored progress of 1/20 second, the
terminal branch dispatches ENDED and SET_PROGRESS 0, but the reducer
suppresses the sub-0.1 progress update, so the progress stays 1/20 — the
claim's "progress becomes 0" fails — while the player state, queue index
and displayed track behave as claimed. -/
theorem onEnded_progress_reset_counterexample :
    (Player.onEnded rand0 true endWorld).1.store.playerState = PlayerState.ended ∧
    (Player.onEnded rand0 true endWorld).1.store.queueIndex = 0 ∧
    (Player.onEnded rand0 true endWorld).1.store.progress = 1 / 20 ∧
    ¬ (Player.onEnded rand0 true endWorld).1.store.progress = 0 := by
  have hnone : endWorld.store.repeatMode = RepeatMode.none := rfl
  have hnlt : ¬ (endWorld.store.queueIndex + 1 <
      ((activeQueue endWorld.store).length : ℤ)) := by decide
  have hprog : endWorld.store.progress = 1 / 20 := rfl
  have hpr : (Player.onEnded rand0 true endWorld).1.store.progress = 1 / 20 := by
    simp [Player.onEnded, hnone, hnlt, hprog]
    norm_num [jsAbs]
  refine ⟨?_, ?_, hpr, ?_⟩
  · simp [Player.onEnded, hnone, hnlt]
  · simp [Player.onEnded, hnone, hnlt]
    rfl
  · rw [hpr]
    norm_num

/-- C1 (amended): the track-end advance policy of #onEnded, under the
documented queue invariant and, for the restart branch, an operational
primary element. (1) REPEAT_MODE.ONE: the current track restarts at
position 0 and resumes, with the queue index unchanged. (2) Otherwise,
with queueIndex+1 within the active ordering, the index becomes
queueIndex+1 and the engine transitions to that entry via crossfade
(the handles swap). (3) Otherwise, under REPEAT_MODE.ALL, the index wraps
to 0 and that entry plays — a hard restart, no crossfade. (4) Otherwise
the player state becomes Ended, the queue index and the displayed track
are unchanged, nothing plays, and the progress is reset to 0 unless it
was already within 0.1 seconds of 0, in which case the reducer suppresses
the SET_PROGRESS 0 dispatch and the progress keeps its value. -/
theorem onEnded_advance_policy (rand : Nat → Nat) (w : World) :
    (w.store.repeatMode = RepeatMode.one →
      ∀ d, w.engine.primary.duration = Option.some d → 0 ≤ d →
        w.engine.primary.src ≠ "" →
        ((Player.onEnded rand true w).1.store.queueIndex = w.store.queueIndex ∧
         (Player.onEnded rand true w).1.engine.primary.currentTime = 0 ∧
         (Player.onEnded rand true w).1.engine.primary.paused = false ∧
         (Player.onEnded rand true w).1.store.playerState = PlayerState.playing)) ∧
    (w.store.repeatMode ≠ RepeatMode.one → 0 ≤ w.store.queueIndex →
      w.store.queueIndex + 1 < ((activeQueue w.store).length : ℤ) →
      ((Player.onEnded rand true w).1.store.queueIndex = w.store.queueIndex + 1 ∧
       (∃ t, jsIndex (activeQueue w.store) (w.store.queueIndex + 1) = Option.some t ∧
         Event.crossfadeStart t ∈ (Player.onEnded rand true w).2 ∧
         Event.swapHandles ∈ (Player.onEnded rand true w).2))) ∧
    (w.store.repeatMode = RepeatMode.all → activeQueue w.store ≠ [] →
      ¬ w.store.queueIndex + 1 < ((activeQueue w.store).length : ℤ) →
      ((Player.onEnded rand true w).1.store.queueIndex = 0 ∧
       (∃ t, jsIndex (activeQueue w.store) 0 = Option.some t ∧
         Event.playCall t ∈ (Player.onEnded rand true w).2) ∧
       ∀ t, Event.crossfadeStart t ∉ (Player.onEnded rand true w).2)) ∧
    (w.store.repeatMode = RepeatMode.none →
      ¬ w.store.queueIndex + 1 < ((activeQueue w.store).length : ℤ) →
      ((Player.onEnded rand true w).1.store.playerState = PlayerState.ended ∧
       (Player.onEnded rand true w).1.store.queueIndex = w.store.queueIndex ∧
       (Player.onEnded rand true w).1.store.currentTrack = w.store.currentTrack ∧
       (Player.onEnded rand true w).1.store.progress =
         (if jsAbs (w.store.progress - 0) < 1 / 10 then w.store.progress else 0) ∧
       (∀ t, Event.crossfadeStart t ∉ (Player.onEnded rand true w).2) ∧
       (∀ t, Event.playCall t ∉ (Player.onEnded rand true w).2))) := by
  refine ⟨?_, ?_, ?_, ?_⟩
  · intro hone d hdur hd0 hsrc
    have htime : min (max (0 : ℚ) 0) d = 0 := by simp [hd0]
    simp [Player.onEnded, hone, Player.seek, hdur, htime, hd0, Player.resume, hsrc]
  · intro hone h0 hlt
    obtain ⟨t, hjs⟩ := jsIndex_isSome (activeQueue w.store) (w.store.queueIndex + 1)
      (by omega) hlt
    refine ⟨?_, t, hjs, ?_, ?_⟩ <;>
      simp [Player.onEnded, hone, hlt, hjs, Player.crossfadeBegin, Player.crossfadeFinish]
  · intro hall hne hnlt
    have hlen : (0 : ℤ) < ((activeQueue w.store).length : ℤ) := by
      have := List.length_pos.mpr hne
      omega
    obtain ⟨t, hjs⟩ := jsIndex_isSome (activeQueue w.store) 0 le_rfl hlen
    refine ⟨?_, ⟨t, hjs, ?_⟩, ?_⟩ <;>
      simp [Player.onEnded, hall, hnlt, hjs, Player.playPrefix]
  · intro hnone hnlt
    refine ⟨?_, ?_, ?_, ?_, ?_, ?_⟩ <;>
      simp [Player.onEnded, hnone, hnlt]

/-- Witness for C1 at a concrete input: simulated natural end of A on the
fixture queue [A,B,C] at index 0, repeat None, shuffle off — the index
becomes 1 and the engine crossfades into B, with the handle swap
occurring. -/
theorem onEnded_advance_policy_witness :
    (Player.onEnded rand0 true baseWorld).1.store.queueIndex = 0 + 1 ∧
    (∃ t, jsIndex (activeQueue baseWorld.store) (0 + 1) = Option.some t ∧
      Event.crossfadeStart t ∈ (Player.onEnded rand0 true baseWorld).2 ∧
      Event.swapHandles ∈ (Player.onEnded rand0 true baseWorld).2) := by
  have h := (onEnded_advance_policy rand0 baseWorld).2.1
    (by decide) (by decide) (by norm_num [activeQueue, baseState, baseWorld])
  simpa [baseWorld, baseState] using h

/-- Counterexample to C4 as stated: on the fixture queue [A,B,C] ending
track A naturally, the SET_CURRENT_TRACK(B) dispatch occurs strictly
before the ramp completes and before the active/standby swap in the
engine's event order — because `await crossfadeTo(...)` resumes once the
fade is merely scheduled — so an observer of the current-track selector
sees B while the audible swap is still incomplete. -/
theorem crossfade_current_track_counterexample :
    List.indexOf (Event.dispatched (Action.setCurrentTrack trackB))
        (Player.onEnded rand0 true baseWorld).2 <
      List.indexOf Event.swapHandles (Player.onEnded rand0 true baseWorld).2 ∧
    List.indexOf (Event.dispatched (Action.setCurrentTrack trackB))
        (Player.onEnded rand0 true baseWorld).2 <
      List.indexOf Event.rampComplete (Player.onEnded rand0 true baseWorld).2 ∧
    Event.swapHandles ∈ (Player.onEnded rand0 true baseWorld).2 ∧
    Event.rampComplete ∈ (Player.onEnded rand0 true baseWorld).2 := by
  decide

/-- C4 (amended): during a natural-end crossfade from A to the next entry
t, the engine's event order is: the standby element starts playing, then —
as soon as the fade is scheduled, since `await crossfadeTo` resumes before
any animation frame — the store's current-track change to t is dispatched,
and only later does the ramp complete and the active/standby swap occur
(followed by a second, no-op current-track dispatch). Observers of the
current-track selector therefore see t while the audible swap is still in
progress; the dispatch is not deferred to after the swap. -/
theorem crossfade_current_track_dispatch_order (rand : Nat → Nat) (w : World)
    (hone : w.store.repeatMode ≠ RepeatMode.one) (h0 : 0 ≤ w.store.queueIndex)
    (hlt : w.store.queueIndex + 1 < ((activeQueue w.store).length : ℤ)) :
    ∃ t, jsIndex (activeQueue w.store) (w.store.queueIndex + 1) = Option.some t ∧
      ∃ pre mid post,
        (Player.onEnded rand true w).2 =
          pre ++ Event.dispatched (Action.setCurrentTrack t) ::
            (mid ++ Event.swapHandles :: post) ∧
        Event.elPlaySecondary ∈ pre ∧
        Event.rampComplete ∈ mid ∧
        (∀ u, Event.dispatched (Action.setCurrentTrack u) ∉ pre) := by
  obtain ⟨t, hjs⟩ := jsIndex_isSome (activeQueue w.store) (w.store.queueIndex + 1)
    (by omega) hlt
  refine ⟨t, hjs,
    [Event.progressTimerStop, Event.dispatched (Action.setQueueIndex (w.store.queueIndex + 1)),
     Event.crossfadeStart t, Event.dispatched (Action.setCrossfading true),
     Event.elPlaySecondary],
    [Event.rampComplete, Event.elPausePrimary],
    [Event.dispatched (Action.setCurrentTrack t), Event.dispatched (Action.setCrossfading false),
     Event.progressTimerStart], ?_, by simp, by simp, ?_⟩
  · simp [Player.onEnded, hone, hlt, hjs, Player.crossfadeBegin, Player.crossfadeFinish]
  · intro u
    simp

/-- Witness for C4 at a concrete input: the fixture's natural end of A
into B exhibits the decomposition — the current-track dispatch sits
between the start of the standby's playback and the ramp completion and
swap. -/
theorem crossfade_current_track_dispatch_order_witness :
    ∃ t, jsIndex (activeQueue baseWorld.store) (baseWorld.store.queueIndex + 1) =
        Option.some t ∧
      ∃ pre mid post,
        (Player.onEnded rand0 true baseWorld).2 =
          pre ++ Event.dispatched (Action.setCurrentTrack t) ::
            (mid ++ Event.swapHandles :: post) ∧
        Event.elPlaySecondary ∈ pre ∧
        Event.rampComplete ∈ mid ∧
        (∀ u, Event.dispatched (Action.setCurrentTrack u) ∉ pre) :=
  crossfade_current_track_dispatch_order rand0 baseWorld (by decide) (by decide)
    (by norm_num [activeQueue, baseState, baseWorld])

end AuraMusic
